import Mathlib

/-!
Verification of the nexus-python-sdk client modules `project.py`,
`schemas.py` and `acls.py`, embedded shallowly.  Python strings are
modelled as lists of characters, Python dictionaries as association
lists inside a JSON value type, and the HTTP transport as a function
from requests to responses.  The helper module `nexussdk/utils/http.py`
is not part of the sources; the few facts needed about it are modelled
from the specification and marked as such.
-/

/-- Python strings, modelled as lists of characters. -/
abbrev PyStr := List Char

/-- Shorthand turning a Lean string literal into a `PyStr`. -/
def S (s : String) : PyStr := s.toList

/-- Characters that `urllib.parse.quote_plus` leaves unchanged:
ASCII letters, digits, underscore, dot, dash and tilde. -/
def isSafeChar (c : Char) : Bool :=
  c.isAlpha || c.isDigit || c = '_' || c = '.' || c = '-' || c = '~'

/-- Uppercase hexadecimal digit character for a value below 16. -/
def hexDigitChar (n : Nat) : Char :=
  if n < 10 then Char.ofNat (48 + n) else Char.ofNat (55 + n)

/-- UTF-8 bytes of a character, as Python encodes text before
percent-encoding it. -/
def utf8Bytes (c : Char) : List Nat :=
  let n := c.toNat
  if n < 128 then [n]
  else if n < 2048 then [192 + n / 64, 128 + n % 64]
  else if n < 65536 then [224 + n / 4096, 128 + n / 64 % 64, 128 + n % 64]
  else [240 + n / 262144, 128 + n / 4096 % 64, 128 + n / 64 % 64, 128 + n % 64]

/-- Percent-encode a list of bytes. -/
def pctBytes : List Nat → PyStr
  | [] => []
  | b :: bs => '%' :: hexDigitChar (b / 16) :: hexDigitChar (b % 16) :: pctBytes bs

/-- Encoding of one character under `quote_plus`: safe characters are
kept, a space becomes a plus, everything else is percent-encoded. -/
def encodeChar (c : Char) : PyStr :=
  if isSafeChar c then [c]
  else if c = ' ' then ['+']
  else pctBytes (utf8Bytes c)

/-- Model of `urllib.parse.quote_plus`. -/
def quote_plus : PyStr → PyStr
  | [] => []
  | c :: cs => encodeChar c ++ quote_plus cs

/-- Characters that can occur in the output of `quote_plus`: safe
characters, the plus sign and the percent sign. -/
def urlCodeChar (c : Char) : Bool :=
  isSafeChar c || c = '+' || c = '%'

/-- Decimal digit characters of a natural number, most significant
first, computed with explicit fuel so that it reduces in the kernel. -/
def natDigitsAux : Nat → Nat → PyStr → PyStr
  | 0, _, acc => acc
  | f + 1, n, acc =>
      if n < 10 then Nat.digitChar n :: acc
      else natDigitsAux f (n / 10) (Nat.digitChar (n % 10) :: acc)

/-- Model of Python `str` on a non-negative integer. -/
def natToChars (n : Nat) : PyStr := natDigitsAux (n + 1) n []

/-- Model of Python `str` on an integer. -/
def intToChars (i : Int) : PyStr :=
  if i < 0 then '-' :: natToChars i.natAbs else natToChars i.natAbs

/-- JSON values: the shape of the data the SDK passes around. -/
inductive Json where
  | null : Json
  | bool (b : Bool) : Json
  | num (i : Int) : Json
  | str (s : PyStr) : Json
  | arr (elems : List Json) : Json
  | obj (members : List (PyStr × Json)) : Json

/-- Lookup in the member list of a JSON object, first match wins. -/
def objFind : List (PyStr × Json) → PyStr → Option Json
  | [], _ => none
  | (k, v) :: rest, key => if k = key then some v else objFind rest key

/-- Python subscript `d[key]`: `KeyError` when the key is absent,
`TypeError` when the value is not a dictionary. -/
def pyGet (j : Json) (key : PyStr) : Except PyStr Json :=
  match j with
  | .obj members =>
      match objFind members key with
      | some v => .ok v
      | none => .error (S "KeyError: " ++ key)
  | _ => .error (S "TypeError: value is not a dictionary")

/-- Requirement that a Python value be a string, as `quote_plus` and
string concatenation demand; anything else raises `TypeError`. -/
def asPyStr : Json → Except PyStr PyStr
  | .str s => .ok s
  | _ => .error (S "TypeError: expected a string")

/-- Model of Python `str` restricted to scalar JSON values; the SDK
only ever stringifies revision numbers and tag names. -/
def pyStr : Json → PyStr
  | .null => S "None"
  | .bool true => S "True"
  | .bool false => S "False"
  | .num i => intToChars i
  | .str s => s
  | .arr _ => S "<list>"
  | .obj _ => S "<dict>"

/-- Body of a JSON string literal: consume characters up to the
closing quote, handling the basic escapes. -/
def parseStrBody : PyStr → Except PyStr (PyStr × PyStr)
  | [] => .error (S "unterminated string")
  | '"' :: rest => .ok ([], rest)
  | '\\' :: 'n' :: rest => (parseStrBody rest).map (fun p => ('\n' :: p.1, p.2))
  | '\\' :: '"' :: rest => (parseStrBody rest).map (fun p => ('"' :: p.1, p.2))
  | '\\' :: '\\' :: rest => (parseStrBody rest).map (fun p => ('\\' :: p.1, p.2))
  | '\\' :: _ => .error (S "bad escape")
  | c :: rest => (parseStrBody rest).map (fun p => (c :: p.1, p.2))

/-- Leading decimal digits of the input, with the remaining input. -/
def parseDigits : PyStr → (List Nat × PyStr)
  | [] => ([], [])
  | c :: rest =>
      if c.isDigit then
        let p := parseDigits rest
        ((c.toNat - 48) :: p.1, p.2)
      else ([], c :: rest)

/-- Natural number denoted by a list of decimal digits. -/
def natFromDigits (ds : List Nat) : Nat :=
  ds.foldl (fun acc d => acc * 10 + d) 0

/-- Fuel-indexed recursive-descent JSON parser, a model of Python
`json.loads` on the whitespace-free subset of JSON.  The members of a
partially consumed object are parsed by recursing on a reconstructed
object input, keeping the recursion structural in the fuel. -/
def parseVal : Nat → PyStr → Except PyStr (Json × PyStr)
  | 0, _ => .error (S "out of fuel")
  | _ + 1, [] => .error (S "unexpected end of input")
  | f + 1, c :: rest =>
      match c, rest with
      | '"', r => (parseStrBody r).map (fun p => (.str p.1, p.2))
      | '\x7b', '\x7d' :: r => .ok (.obj [], r)
      | '\x7b', '"' :: r₁ =>
          match parseStrBody r₁ with
          | .error e => .error e
          | .ok (key, r₂) =>
              match r₂ with
              | ':' :: r₃ =>
                  match parseVal f r₃ with
                  | .error e => .error e
                  | .ok (v, r₄) =>
                      match r₄ with
                      | ',' :: r₅ =>
                          match parseVal f ('\x7b' :: r₅) with
                          | .ok (.obj ms, r₆) => .ok (.obj ((key, v) :: ms), r₆)
                          | .ok _ => .error (S "bad object tail")
                          | .error e => .error e
                      | '\x7d' :: r₅ => .ok (.obj [(key, v)], r₅)
                      | _ => .error (S "expected comma or closing brace")
              | _ => .error (S "expected colon")
      | '\x7b', _ => .error (S "expected key string")
      | '[', ']' :: r => .ok (.arr [], r)
      | '[', r =>
          match parseVal f r with
          | .error e => .error e
          | .ok (v, r₁) =>
              match r₁ with
              | ',' :: r₂ =>
                  match parseVal f ('[' :: r₂) with
                  | .ok (.arr vs, r₃) => .ok (.arr (v :: vs), r₃)
                  | .ok _ => .error (S "bad array tail")
                  | .error e => .error e
              | ']' :: r₂ => .ok (.arr [v], r₂)
              | _ => .error (S "expected comma or closing bracket")
      | 'n', 'u' :: 'l' :: 'l' :: r => .ok (.null, r)
      | 't', 'r' :: 'u' :: 'e' :: r => .ok (.bool true, r)
      | 'f', 'a' :: 'l' :: 's' :: 'e' :: r => .ok (.bool false, r)
      | '-', r =>
          match parseDigits r with
          | ([], _) => .error (S "bad number")
          | (ds, r₁) => .ok (.num (-(natFromDigits ds : Int)), r₁)
      | ch, r =>
          if ch.isDigit then
            .ok (.num (natFromDigits (parseDigits (ch :: r)).1), (parseDigits (ch :: r)).2)
          else .error (S "unexpected character")

/-- Model of Python `json.loads`: parse one value and require the
input to be fully consumed. -/
def jsonParse (s : PyStr) : Except PyStr Json :=
  match parseVal (s.length + 1) s with
  | .ok (v, []) => .ok v
  | .ok (_, _ :: _) => .error (S "trailing characters")
  | .error e => .error e

/-- HTTP methods used by the SDK. -/
inductive Method where
  | GET | PUT | POST | PATCH | DELETE
deriving DecidableEq

/-- An HTTP request as assembled by the SDK: method, URL (path plus
query string) and JSON body (`Json.null` for requests without one). -/
structure Request where
  method : Method
  url : PyStr
  body : Json

/-- An HTTP response as seen by the SDK. -/
structure Response where
  url : PyStr
  status_code : Nat
  text : PyStr

/-- The HTTP transport: an external collaborator mapping each request
to a response. -/
def Transport := Request → Response

/-- Modelled from the spec: `is_response_valid` of the absent module
`nexussdk/utils/http.py`; per the spec a call fails exactly when the
remote response status is not in the success range, i.e. outside 2xx. -/
def is_response_valid (r : Response) : Bool :=
  200 ≤ r.status_code && r.status_code < 300

/-- Error message raised by the SDK on an invalid response
(project.py lines 30 to 32 and the analogous blocks). -/
def errorDetail (r : Response) : PyStr :=
  S "Invalid http request for " ++ r.url ++ S " (Status " ++ natToChars r.status_code
    ++ S ")" ++ S "\n" ++ r.text

/-- Shared tail of every operation: check the response and parse its
JSON body, raising with the status code and body text otherwise. -/
def handleResponse (r : Response) : Except PyStr Json :=
  if is_response_valid r then jsonParse r.text else .error (errorDetail r)

/-- URL built by `project.fetch` (project.py lines 20 to 25). -/
def project_fetch_url (org_label project_label : PyStr) (rev : Option Nat) : PyStr :=
  let url := S "/projects/" ++ quote_plus org_label ++ S "/" ++ quote_plus project_label
  match rev with
  | none => url
  | some r => url ++ S "?rev=" ++ natToChars r

/-- The operation `project.fetch`. -/
def project_fetch (t : Transport) (org_label project_label : PyStr) (rev : Option Nat) :
    Except PyStr Json :=
  handleResponse (t ⟨.GET, project_fetch_url org_label project_label rev, .null⟩)

/-- Request built by `project.create` (project.py lines 48 to 55):
a PUT on the project URL, with an empty config when none is given. -/
def project_create_req (org_label project_label : PyStr) (config : Option Json) : Request :=
  ⟨.PUT, S "/projects/" ++ quote_plus org_label ++ S "/" ++ quote_plus project_label,
    config.getD (.obj [])⟩

/-- The operation `project.create`. -/
def project_create (t : Transport) (org_label project_label : PyStr) (config : Option Json) :
    Except PyStr Json :=
  handleResponse (t (project_create_req org_label project_label config))

/-- Request built by `project.update` (project.py lines 78 to 86): the
revision defaults to the payload's `_rev` field, which is read before
the labels are, matching the source's evaluation order. -/
def project_update_req (project : Json) (previous_rev : Option Nat) :
    Except PyStr Request := do
  let rev ← match previous_rev with
    | some r => pure (Json.num r)
    | none => pyGet project (S "_rev")
  let orgJ ← pyGet project (S "_organizationLabel")
  let org ← asPyStr orgJ
  let labJ ← pyGet project (S "_label")
  let lab ← asPyStr labJ
  pure ⟨.PUT, S "/projects/" ++ quote_plus org ++ S "/" ++ quote_plus lab
      ++ S "?rev=" ++ pyStr rev, project⟩

/-- The operation `project.update`. -/
def project_update (t : Transport) (project : Json) (previous_rev : Option Nat) :
    Except PyStr Json := do
  let req ← project_update_req project previous_rev
  handleResponse (t req)

/-- URL built by `project.list` (project.py lines 112 to 126). -/
def project_list_url (org_label : Option PyStr) (pagination_from pagination_size : Nat)
    (deprecated : Option Bool) (full_text_search_query : Option PyStr) : PyStr :=
  let url := S "/projects"
  let url := match org_label with
    | none => url
    | some o => url ++ S "/" ++ quote_plus o
  let url := url ++ S "?from=" ++ natToChars pagination_from
      ++ S "&size=" ++ natToChars pagination_size
  let url := match deprecated with
    | none => url
    | some b => url ++ S "&deprecated=" ++ (if b then S "true" else S "false")
  match full_text_search_query with
  | none => url
  | some q => url ++ S "&q=" ++ quote_plus q

/-- The Python defaults of `project.list`: `pagination_from=0`,
`pagination_size=20` and `None` for the optional filters. -/
def project_list_url_defaults (org_label : Option PyStr) : PyStr :=
  project_list_url org_label 0 20 none none

/-- The operation `project.list`. -/
def project_list (t : Transport) (org_label : Option PyStr)
    (pagination_from pagination_size : Nat) (deprecated : Option Bool)
    (full_text_search_query : Option PyStr) : Except PyStr Json :=
  handleResponse (t ⟨.GET,
    project_list_url org_label pagination_from pagination_size deprecated
      full_text_search_query, .null⟩)

/-- URL built by `project.deprecate` (project.py lines 152 to 155). -/
def project_deprecate_url (org_label project_label : PyStr) (previous_rev : Nat) : PyStr :=
  S "/projects/" ++ quote_plus org_label ++ S "/" ++ quote_plus project_label
    ++ S "?rev=" ++ natToChars previous_rev

/-- The operation `project.deprecate`. -/
def project_deprecate (t : Transport) (org_label project_label : PyStr)
    (previous_rev : Nat) : Except PyStr Json :=
  handleResponse (t ⟨.DELETE, project_deprecate_url org_label project_label previous_rev, .null⟩)

/-- URL built by `schemas.list` (schemas.py lines 25 to 38); the
full-text query is tested for Python truthiness, not only for `None`,
so an empty query string adds no parameter. -/
def schemas_list_url (org_label project_label : PyStr)
    (pagination_from pagination_size : Nat) (deprecated : Option Bool)
    (full_text_search_query : Option PyStr) : PyStr :=
  let path := S "/schemas/" ++ quote_plus org_label ++ S "/" ++ quote_plus project_label
  let path := path ++ S "?from=" ++ natToChars pagination_from
      ++ S "&size=" ++ natToChars pagination_size
  let path := match deprecated with
    | none => path
    | some b => path ++ S "&deprecated=" ++ (if b then S "true" else S "false")
  match full_text_search_query with
  | none => path
  | some q => if q.isEmpty then path else path ++ S "&q=" ++ quote_plus q

/-- The Python defaults of `schemas.list`. -/
def schemas_list_url_defaults (org_label project_label : PyStr) : PyStr :=
  schemas_list_url org_label project_label 0 20 none none

/-- Request built by `schemas.fetch` (schemas.py lines 54 to 66); it
raises when `rev` and `tag` are both given, before anything else. -/
def schemas_fetch_req (org_label project_label schema_id : PyStr) (rev : Option Nat)
    (tag : Option PyStr) : Except PyStr Request :=
  match rev, tag with
  | some _, some _ =>
      .error (S "The arguments rev and tag are mutually exclusive. One or the other must be chosen.")
  | rev, tag =>
      let path := S "/schemas/" ++ quote_plus org_label ++ S "/" ++ quote_plus project_label
        ++ S "/" ++ quote_plus schema_id
      let path := match rev with
        | none => path
        | some r => path ++ S "?rev=" ++ natToChars r
      let path := match tag with
        | none => path
        | some tg => path ++ S "?tag=" ++ tg
      .ok ⟨.GET, path, .null⟩

/-- The operation `schemas.fetch`. -/
def schemas_fetch (t : Transport) (org_label project_label schema_id : PyStr)
    (rev : Option Nat) (tag : Option PyStr) : Except PyStr Json := do
  let req ← schemas_fetch_req org_label project_label schema_id rev tag
  handleResponse (t req)

/-- Request built by `schemas.create` (schemas.py lines 83 to 95): a
JSON string payload is parsed into a dictionary before being sent. -/
def schemas_create_req (org_label project_label : PyStr) (schema_obj : Json)
    (id : Option PyStr) : Except PyStr Request := do
  let parsed ← match schema_obj with
    | .str s => jsonParse s
    | other => pure other
  let path := S "/schemas/" ++ quote_plus org_label ++ S "/" ++ quote_plus project_label
  match id with
  | none => pure ⟨.POST, path, parsed⟩
  | some i => pure ⟨.PUT, path ++ S "/" ++ quote_plus i, parsed⟩

/-- Request built by `schemas.update` (schemas.py lines 112 to 117). -/
def schemas_update_req (schema : Json) (previous_rev : Option Nat) :
    Except PyStr Request := do
  let rev ← match previous_rev with
    | some r => pure (Json.num r)
    | none => pyGet schema (S "_rev")
  let selfJ ← pyGet schema (S "_self")
  let selfStr ← asPyStr selfJ
  pure ⟨.PUT, selfStr ++ S "?rev=" ++ pyStr rev, schema⟩

/-- Request built by `schemas.deprecate` (schemas.py lines 131 to 136). -/
def schemas_deprecate_req (schema : Json) (previous_rev : Option Nat) :
    Except PyStr Request := do
  let rev ← match previous_rev with
    | some r => pure (Json.num r)
    | none => pyGet schema (S "_rev")
  let selfJ ← pyGet schema (S "_self")
  let selfStr ← asPyStr selfJ
  pure ⟨.DELETE, selfStr ++ S "?rev=" ++ pyStr rev, .null⟩

/-- Request built by `schemas.tag` (schemas.py lines 152 to 165). -/
def schemas_tag_req (schema : Json) (tag_value : PyStr) (rev_to_tag : Option Nat)
    (previous_rev : Option Nat) : Except PyStr Request := do
  let rev ← match previous_rev with
    | some r => pure (Json.num r)
    | none => pyGet schema (S "_rev")
  let revToTag ← match rev_to_tag with
    | some r => pure (Json.num r)
    | none => pyGet schema (S "_rev")
  let selfJ ← pyGet schema (S "_self")
  let selfStr ← asPyStr selfJ
  pure ⟨.PUT, selfStr ++ S "/tags?rev=" ++ pyStr rev,
    .obj [(S "tag", .str tag_value), (S "rev", revToTag)]⟩

/-- Modelled from the spec: URL building of the absent module
`nexussdk/utils/http.py` for a path given as segments; the spec states
that operations URL-encode caller-supplied path segments and join them
into paths of the form `/acls/\x7bsubpath\x7d`. -/
def pathFromSegments : List PyStr → PyStr
  | [] => []
  | seg :: rest => S "/" ++ quote_plus seg ++ pathFromSegments rest

/-- Modelled from the spec: query-string assembly of the absent http
helper module; a parameter appears exactly when its value is present. -/
def queryFromParams (ps : List (PyStr × Option PyStr)) : PyStr :=
  match ps.filterMap (fun p => p.2.map (fun v => p.1 ++ S "=" ++ v)) with
  | [] => []
  | p :: rest => S "?" ++ p ++ rest.foldl (fun acc q => acc ++ S "&" ++ q) []

/-- Lowercase boolean rendering used in query strings. -/
def boolChars (b : Bool) : PyStr := if b then S "true" else S "false"

/-- Request built by `acls.fetch` (acls.py line 20), through the
modelled http helper. -/
def acls_fetch_req (subpath : PyStr) (rev : Option Nat) (self : Bool) : Request :=
  ⟨.GET, pathFromSegments [S "acls", subpath]
      ++ queryFromParams [(S "rev", rev.map natToChars), (S "self", some (boolChars self))],
    .null⟩

/-- Request built by `acls.fetch_` (acls.py line 33): the full path is
used as given. -/
def acls_fetch_full_req (path : PyStr) (rev : Option Nat) (self : Bool) : Request :=
  ⟨.GET, path ++ queryFromParams [(S "rev", rev.map natToChars), (S "self", some (boolChars self))],
    .null⟩

/-- Request built by `acls.list` (acls.py line 48). -/
def acls_list_req (subpath : PyStr) (ancestors self : Bool) : Request :=
  ⟨.GET, pathFromSegments [S "acls", subpath]
      ++ queryFromParams [(S "ancestors", some (boolChars ancestors)),
        (S "self", some (boolChars self))], .null⟩

/-- Request built by `acls.list_` (acls.py line 63). -/
def acls_list_full_req (path : PyStr) (ancestors self : Bool) : Request :=
  ⟨.GET, path ++ queryFromParams [(S "ancestors", some (boolChars ancestors)),
      (S "self", some (boolChars self))], .null⟩

/-- The helper `acls._payload` (acls.py lines 164 to 182): the ACL
payload, with `@type` appended only when an operation name is given. -/
def acls_payload (permissions : List PyStr) (identity : Json) (operation : Option PyStr) :
    Json :=
  .obj ([(S "acl",
      .arr [.obj [(S "permissions", .arr (permissions.map .str)), (S "identity", identity)]])]
    ++ (match operation with
        | none => []
        | some op => [(S "@type", .str op)]))

/-- Request built by `acls.replace` (acls.py lines 77 to 78). -/
def acls_replace_req (subpath : PyStr) (permissions : List PyStr) (identity : Json)
    (rev : Nat) : Request :=
  ⟨.PUT, pathFromSegments [S "acls", subpath]
      ++ queryFromParams [(S "rev", some (natToChars rev))],
    acls_payload permissions identity none⟩

/-- Request built by `acls.replace_` (acls.py line 89). -/
def acls_replace_full_req (path : PyStr) (payload : Json) (rev : Nat) : Request :=
  ⟨.PUT, path ++ queryFromParams [(S "rev", some (natToChars rev))], payload⟩

/-- Request built by `acls.append` (acls.py lines 101 to 102). -/
def acls_append_req (subpath : PyStr) (permissions : List PyStr) (identity : Json)
    (rev : Nat) : Request :=
  ⟨.PATCH, pathFromSegments [S "acls", subpath]
      ++ queryFromParams [(S "rev", some (natToChars rev))],
    acls_payload permissions identity (some (S "Append"))⟩

/-- Request built by `acls.append_` (acls.py line 113). -/
def acls_append_full_req (path : PyStr) (payload : Json) (rev : Nat) : Request :=
  ⟨.PATCH, path ++ queryFromParams [(S "rev", some (natToChars rev))], payload⟩

/-- Request built by `acls.subtract` (acls.py lines 125 to 126). -/
def acls_subtract_req (subpath : PyStr) (permissions : List PyStr) (identity : Json)
    (rev : Nat) : Request :=
  ⟨.PATCH, pathFromSegments [S "acls", subpath]
      ++ queryFromParams [(S "rev", some (natToChars rev))],
    acls_payload permissions identity (some (S "Subtract"))⟩

/-- Request built by `acls.subtract_` (acls.py line 137). -/
def acls_subtract_full_req (path : PyStr) (payload : Json) (rev : Nat) : Request :=
  ⟨.PATCH, path ++ queryFromParams [(S "rev", some (natToChars rev))], payload⟩

/-- Request built by `acls.delete` (acls.py line 149). -/
def acls_delete_req (subpath : PyStr) (rev : Nat) : Request :=
  ⟨.DELETE, pathFromSegments [S "acls", subpath]
      ++ queryFromParams [(S "rev", some (natToChars rev))], .null⟩

/-- Request built by `acls.delete_` (acls.py line 159). -/
def acls_delete_full_req (path : PyStr) (rev : Nat) : Request :=
  ⟨.DELETE, path ++ queryFromParams [(S "rev", some (natToChars rev))], .null⟩

/-- The operations exposed by the library, with their arguments. -/
inductive LibCall where
  | projectFetch (org proj : PyStr) (rev : Option Nat)
  | projectCreate (org proj : PyStr) (config : Option Json)
  | projectUpdate (project : Json) (previous_rev : Option Nat)
  | projectList (org : Option PyStr) (pagination_from pagination_size : Nat)
      (deprecated : Option Bool) (q : Option PyStr)
  | projectDeprecate (org proj : PyStr) (previous_rev : Nat)
  | schemasList (org proj : PyStr) (pagination_from pagination_size : Nat)
      (deprecated : Option Bool) (q : Option PyStr)
  | schemasFetch (org proj sid : PyStr) (rev : Option Nat) (tag : Option PyStr)
  | schemasCreate (org proj : PyStr) (schema_obj : Json) (id : Option PyStr)
  | schemasUpdate (schema : Json) (previous_rev : Option Nat)
  | schemasDeprecate (schema : Json) (previous_rev : Option Nat)
  | schemasTag (schema : Json) (tag_value : PyStr) (rev_to_tag previous_rev : Option Nat)
  | aclsFetch (subpath : PyStr) (rev : Option Nat) (self : Bool)
  | aclsFetchFull (path : PyStr) (rev : Option Nat) (self : Bool)
  | aclsList (subpath : PyStr) (ancestors self : Bool)
  | aclsListFull (path : PyStr) (ancestors self : Bool)
  | aclsReplace (subpath : PyStr) (permissions : List PyStr) (identity : Json) (rev : Nat)
  | aclsReplaceFull (path : PyStr) (payload : Json) (rev : Nat)
  | aclsAppend (subpath : PyStr) (permissions : List PyStr) (identity : Json) (rev : Nat)
  | aclsAppendFull (path : PyStr) (payload : Json) (rev : Nat)
  | aclsSubtract (subpath : PyStr) (permissions : List PyStr) (identity : Json) (rev : Nat)
  | aclsSubtractFull (path : PyStr) (payload : Json) (rev : Nat)
  | aclsDelete (subpath : PyStr) (rev : Nat)
  | aclsDeleteFull (path : PyStr) (rev : Nat)

/-- The requests a library call sends: none when the call raises
before reaching the transport. -/
def requestsOf : LibCall → List Request
  | .projectFetch o p r => [⟨.GET, project_fetch_url o p r, .null⟩]
  | .projectCreate o p c => [project_create_req o p c]
  | .projectUpdate pr prev =>
      match project_update_req pr prev with
      | .ok req => [req]
      | .error _ => []
  | .projectList o pf ps d q => [⟨.GET, project_list_url o pf ps d q, .null⟩]
  | .projectDeprecate o p prev => [⟨.DELETE, project_deprecate_url o p prev, .null⟩]
  | .schemasList o p pf ps d q => [⟨.GET, schemas_list_url o p pf ps d q, .null⟩]
  | .schemasFetch o p sid r tg =>
      match schemas_fetch_req o p sid r tg with
      | .ok req => [req]
      | .error _ => []
  | .schemasCreate o p so i =>
      match schemas_create_req o p so i with
      | .ok req => [req]
      | .error _ => []
  | .schemasUpdate sc prev =>
      match schemas_update_req sc prev with
      | .ok req => [req]
      | .error _ => []
  | .schemasDeprecate sc prev =>
      match schemas_deprecate_req sc prev with
      | .ok req => [req]
      | .error _ => []
  | .schemasTag sc tv rtt prev =>
      match schemas_tag_req sc tv rtt prev with
      | .ok req => [req]
      | .error _ => []
  | .aclsFetch sp r sf => [acls_fetch_req sp r sf]
  | .aclsFetchFull pa r sf => [acls_fetch_full_req pa r sf]
  | .aclsList sp a sf => [acls_list_req sp a sf]
  | .aclsListFull pa a sf => [acls_list_full_req pa a sf]
  | .aclsReplace sp pe idn r => [acls_replace_req sp pe idn r]
  | .aclsReplaceFull pa pl r => [acls_replace_full_req pa pl r]
  | .aclsAppend sp pe idn r => [acls_append_req sp pe idn r]
  | .aclsAppendFull pa pl r => [acls_append_full_req pa pl r]
  | .aclsSubtract sp pe idn r => [acls_subtract_req sp pe idn r]
  | .aclsSubtractFull pa pl r => [acls_subtract_full_req pa pl r]
  | .aclsDelete sp r => [acls_delete_req sp r]
  | .aclsDeleteFull pa r => [acls_delete_full_req pa r]

/-- Modelled from the spec: one stored resource on the remote service,
its identifying string fields, its deprecation flag and its revision
counter (spec section 3: entities carry `_rev`; deprecation is a
terminal soft delete). -/
structure Entry where
  fields : List (PyStr × PyStr)
  deprecated : Bool
  rev : Nat

/-- Modelled from the spec: the remote service's store, an association
list keyed by resource path. -/
def ServerState := List (PyStr × Entry)

/-- Association-list lookup in the server store. -/
def assocFind : ServerState → PyStr → Option Entry
  | [], _ => none
  | (k, e) :: rest, key => if k = key then some e else assocFind rest key

/-- Association-list update of the server store. -/
def assocSet : ServerState → PyStr → Entry → ServerState
  | [], key, e => [(key, e)]
  | (k, e₀) :: rest, key, e =>
      if k = key then (key, e) :: rest else (k, e₀) :: assocSet rest key e

/-- Path part of a URL: everything before the first question mark. -/
def takeUntilQ : PyStr → PyStr
  | [] => []
  | c :: rest => if c = '?' then [] else c :: takeUntilQ rest

/-- Split a list at its first slash. -/
def breakSlash : PyStr → (PyStr × PyStr)
  | [] => ([], [])
  | c :: rest =>
      if c = '/' then ([], rest)
      else
        let p := breakSlash rest
        (c :: p.1, p.2)

/-- Does the list start with the given pattern? -/
def startsWith : PyStr → PyStr → Bool
  | [], _ => true
  | _ :: _, [] => false
  | p :: ps, c :: cs => p = c && startsWith ps cs

/-- JSON text of one string field. -/
def fieldChars (k v : PyStr) : PyStr := '"' :: k ++ '"' :: ':' :: '"' :: v ++ ['"']

/-- JSON text of the fields of a flat object of string fields. -/
def serializeFields : List (PyStr × PyStr) → PyStr
  | [] => ['\x7d']
  | [(k, v)] => fieldChars k v ++ ['\x7d']
  | (k, v) :: rest => fieldChars k v ++ ',' :: serializeFields rest

/-- Modelled from the spec: the JSON text the remote service returns
for a stored resource, a flat object of string fields. -/
def serializeFlat (l : List (PyStr × PyStr)) : PyStr := '\x7b' :: serializeFields l

/-- Modelled from the spec: the identifying fields the service derives
for a newly created resource; for a project path the organization and
project labels come from the two path segments. -/
def newFields (key : PyStr) : List (PyStr × PyStr) :=
  if startsWith (S "/projects/") key then
    let p := breakSlash (key.drop 10)
    [(S "_organizationLabel", p.1), (S "_label", p.2)]
  else []

/-- Modelled from the spec: the remote service's handling of one
request (spec sections 3 and 6).  Reads return the stored resource;
`PUT` creates a resource or, unless it is deprecated, updates it;
`PATCH` updates an existing non-deprecated resource; `POST` creates a
fresh resource; `DELETE` marks the resource deprecated.  No transition
ever clears the deprecation flag, and mutations of a deprecated
resource are rejected. -/
def serverStep (s : ServerState) (req : Request) : Response × ServerState :=
  let key := takeUntilQ req.url
  match req.method with
  | .GET =>
      match assocFind s key with
      | some e => (⟨req.url, 200, serializeFlat e.fields⟩, s)
      | none => (⟨req.url, 404, S "not found"⟩, s)
  | .PUT =>
      match assocFind s key with
      | some e =>
          if e.deprecated then (⟨req.url, 400, S "resource is deprecated"⟩, s)
          else (⟨req.url, 200, serializeFlat e.fields⟩,
            assocSet s key ⟨e.fields, e.deprecated, e.rev + 1⟩)
      | none =>
          (⟨req.url, 201, serializeFlat (newFields key)⟩,
            assocSet s key ⟨newFields key, false, 1⟩)
  | .POST =>
      match assocFind s key with
      | some _ => (⟨req.url, 409, S "conflict"⟩, s)
      | none =>
          (⟨req.url, 201, serializeFlat (newFields key)⟩,
            assocSet s key ⟨newFields key, false, 1⟩)
  | .PATCH =>
      match assocFind s key with
      | some e =>
          if e.deprecated then (⟨req.url, 400, S "resource is deprecated"⟩, s)
          else (⟨req.url, 200, serializeFlat e.fields⟩,
            assocSet s key ⟨e.fields, e.deprecated, e.rev + 1⟩)
      | none => (⟨req.url, 404, S "not found"⟩, s)
  | .DELETE =>
      match assocFind s key with
      | some e => (⟨req.url, 200, serializeFlat e.fields⟩,
          assocSet s key ⟨e.fields, true, e.rev + 1⟩)
      | none => (⟨req.url, 404, S "not found"⟩, s)

/-- Run a list of requests against the modelled service. -/
def applyRequests (s : ServerState) (reqs : List Request) : ServerState :=
  reqs.foldl (fun st r => (serverStep st r).2) s

/-- Run one library call against the modelled service. -/
def runCall (s : ServerState) (c : LibCall) : ServerState :=
  applyRequests s (requestsOf c)

/-- Run a sequence of library calls against the modelled service. -/
def runCalls (s : ServerState) (cs : List LibCall) : ServerState :=
  cs.foldl runCall s

/-- Is the resource at the given key deprecated in this state? -/
def deprecatedAt (s : ServerState) (key : PyStr) : Bool :=
  match assocFind s key with
  | some e => e.deprecated
  | none => false

/-- The round trip of claim C8: `project.create` followed by
`project.fetch` with the same labels, against the modelled service
started in the given state. -/
def createThenFetch (s₀ : ServerState) (org proj : PyStr) : Except PyStr Json :=
  let step₁ := serverStep s₀ (project_create_req org proj none)
  match handleResponse step₁.1 with
  | .error e => .error e
  | .ok _ =>
      handleResponse (serverStep step₁.2 ⟨.GET, project_fetch_url org proj none, .null⟩).1

/-- Valid organization or project labels: nonempty strings of ASCII
letters, digits, underscore and dash (spec glossary: human-readable
identifiers forming a two-level namespace). -/
def validLabelChar (c : Char) : Bool :=
  c.isAlpha || c.isDigit || c = '_' || c = '-'

/-- Validity of a label. -/
def validLabel (s : PyStr) : Bool :=
  !s.isEmpty && s.all validLabelChar

/-- Query string of a URL: everything after the first question mark. -/
def afterQ : PyStr → PyStr
  | [] => []
  | c :: rest => if c = '?' then rest else afterQ rest

/-- Split a query string at its ampersands. -/
def splitAmp : PyStr → List PyStr
  | [] => [[]]
  | c :: rest =>
      if c = '&' then [] :: splitAmp rest
      else
        match splitAmp rest with
        | [] => [[c]]
        | g :: gs => (c :: g) :: gs

/-- The parameters of a URL's query string. -/
def queryParams (url : PyStr) : List PyStr := splitAmp (afterQ url)

/-- Does a parameter with the given name appear in the query string? -/
def hasParam (name url : PyStr) : Bool :=
  (queryParams url).any (fun p => startsWith (name ++ ['=']) p)

/-- Absence of a character from a string. -/
def NoChar (x : Char) (s : PyStr) : Prop := ∀ c ∈ s, c ≠ x

/-- Substring containment, up to explicit decomposition. -/
def containsSub (needle hay : PyStr) : Prop := ∃ a b, hay = a ++ needle ++ b

/-- The `deprecated` fragment a listing URL appends. -/
def depPart (deprecated : Option Bool) : PyStr :=
  match deprecated with
  | none => []
  | some b => S "&deprecated=" ++ (if b then S "true" else S "false")

/-- The `q` fragment a listing URL appends, given the final encoded
value when present. -/
def qPart (q : Option PyStr) : PyStr :=
  match q with
  | none => []
  | some e => S "&q=" ++ e

/-- The effective `q` argument of `schemas.list`, after Python
truthiness collapses the empty string to nothing. -/
def schemasQArg (q : Option PyStr) : Option PyStr :=
  match q with
  | none => none
  | some qs => if qs.isEmpty then none else some qs

/-- Decidability of character absence, for concrete evaluations. -/
instance (x : Char) (s : PyStr) : Decidable (NoChar x s) :=
  inferInstanceAs (Decidable (∀ c ∈ s, c ≠ x))

/-- A concrete project payload, as `project.fetch` would return it. -/
def witnessPayload : Json :=
  .obj [(S "_rev", .num 3), (S "_organizationLabel", .str (S "myorg")),
    (S "_label", .str (S "myproj")),
    (S "_self", .str (S "https://nexus.example/v1/schemas/myorg/myproj/sch1"))]

/-- A transport that always reports a conflict. -/
def witnessTransport : Transport := fun req => ⟨req.url, 409, S "conflict: incorrect revision"⟩

/-- A server state holding one deprecated project. -/
def witnessServer : ServerState :=
  [(S "/projects/o1/p1",
    ⟨[(S "_organizationLabel", S "o1"), (S "_label", S "p1")], true, 2⟩)]

/-- A concrete sequence of library calls touching the deprecated project. -/
def witnessCalls : List LibCall :=
  [.projectCreate (S "o1") (S "p1") none, .projectUpdate witnessPayload (some 2),
   .projectDeprecate (S "o1") (S "p1") 2, .aclsDelete (S "org1/proj1") 1,
   .projectFetch (S "o1") (S "p1") none]

theorem charToNat_lt (c : Char) : c.toNat < 1114112 := by
  have h : c.val.toNat < 55296 ∨ (57344 ≤ c.val.toNat ∧ c.val.toNat < 1114112) := c.valid
  have he : c.toNat = c.val.toNat := rfl
  omega

theorem utf8Bytes_lt (c : Char) : ∀ b ∈ utf8Bytes c, b < 256 := by
  intro b hb
  have hc := charToNat_lt c
  simp only [utf8Bytes] at hb
  split at hb
  · simp at hb; omega
  · split at hb
    · simp at hb; rcases hb with h | h <;> omega
    · split at hb
      · simp at hb; rcases hb with h | h | h <;> omega
      · simp at hb; rcases hb with h | h | h | h <;> omega

theorem hexDigitChar_safe : ∀ n, n < 16 → isSafeChar (hexDigitChar n) = true := by
  intro n h
  interval_cases n <;> decide

theorem pctBytes_code : ∀ bs, (∀ b ∈ bs, b < 256) → ∀ c ∈ pctBytes bs, urlCodeChar c = true := by
  intro bs
  induction bs with
  | nil => intro _ c hc; simp [pctBytes] at hc
  | cons b rest ih =>
      intro hlt c hc
      have hb : b < 256 := hlt b (by simp)
      simp only [pctBytes, List.mem_cons] at hc
      rcases hc with h | h | h | h
      · subst h; decide
      · subst h
        simp [urlCodeChar, hexDigitChar_safe (b / 16) (by omega)]
      · subst h
        simp [urlCodeChar, hexDigitChar_safe (b % 16) (by omega)]
      · exact ih (fun x hx => hlt x (by simp [hx])) c h

theorem encodeChar_code : ∀ c c', c' ∈ encodeChar c → urlCodeChar c' = true := by
  intro c c' hc
  simp only [encodeChar] at hc
  split at hc
  · rename_i hsafe
    simp at hc; subst hc; simp [urlCodeChar, hsafe]
  · split at hc
    · simp at hc; subst hc; decide
    · exact pctBytes_code _ (utf8Bytes_lt c) c' hc

theorem quote_plus_code : ∀ s c, c ∈ quote_plus s → urlCodeChar c = true := by
  intro s
  induction s with
  | nil => intro c hc; simp [quote_plus] at hc
  | cons x rest ih =>
      intro c hc
      simp only [quote_plus, List.mem_append] at hc
      rcases hc with h | h
      · exact encodeChar_code x c h
      · exact ih c h

theorem quote_plus_noChar (x : Char) (hx : urlCodeChar x = false) (s : PyStr) :
    NoChar x (quote_plus s) := by
  intro c hc he
  subst he
  rw [quote_plus_code s c hc] at hx
  cases hx

theorem digitChar_isDigit : ∀ n, n < 10 → (Nat.digitChar n).isDigit = true := by
  intro n h
  interval_cases n <;> decide

theorem natDigitsAux_digits :
    ∀ f n acc, (∀ c ∈ acc, c.isDigit = true) → ∀ c ∈ natDigitsAux f n acc, c.isDigit = true := by
  intro f
  induction f with
  | zero => intro n acc hacc c hc; exact hacc c hc
  | succ f ih =>
      intro n acc hacc c hc
      simp only [natDigitsAux] at hc
      split at hc
      · rcases List.mem_cons.mp hc with h | h
        · subst h; exact digitChar_isDigit n (by omega)
        · exact hacc c h
      · refine ih (n / 10) _ ?_ c hc
        intro d hd
        rcases List.mem_cons.mp hd with h | h
        · subst h; exact digitChar_isDigit _ (Nat.mod_lt _ (by omega))
        · exact hacc d h

theorem natToChars_digits (n : Nat) : ∀ c ∈ natToChars n, c.isDigit = true :=
  natDigitsAux_digits (n + 1) n [] (by intro c hc; simp at hc)

theorem natToChars_noChar (x : Char) (hx : x.isDigit = false) (n : Nat) :
    NoChar x (natToChars n) := by
  intro c hc he
  subst he
  rw [natToChars_digits n c hc] at hx
  cases hx

theorem noChar_append {x : Char} {a b : PyStr} (ha : NoChar x a) (hb : NoChar x b) :
    NoChar x (a ++ b) := by
  intro c hc
  rcases List.mem_append.mp hc with h | h
  · exact ha c h
  · exact hb c h

theorem afterQ_append {a : PyStr} (ha : NoChar '?' a) (b : PyStr) :
    afterQ (a ++ '?' :: b) = b := by
  induction a with
  | nil => simp [afterQ]
  | cons c cs ih =>
      have hc : c ≠ '?' := ha c (by simp)
      simp only [List.cons_append, afterQ, if_neg hc]
      exact ih (fun d hd => ha d (by simp [hd]))

theorem splitAmp_noAmp {a : PyStr} (ha : NoChar '&' a) : splitAmp a = [a] := by
  induction a with
  | nil => simp [splitAmp]
  | cons c cs ih =>
      have hc : c ≠ '&' := ha c (by simp)
      have ha' : splitAmp cs = [cs] := ih (fun d hd => ha d (by simp [hd]))
      simp [splitAmp, hc, ha']

theorem splitAmp_append {a : PyStr} (ha : NoChar '&' a) (b : PyStr) :
    splitAmp (a ++ '&' :: b) = a :: splitAmp b := by
  induction a with
  | nil => simp [splitAmp]
  | cons c cs ih =>
      have hc : c ≠ '&' := ha c (by simp)
      have ha' : splitAmp (cs ++ '&' :: b) = cs :: splitAmp b :=
        ih (fun d hd => ha d (by simp [hd]))
      simp [splitAmp, hc, ha']

theorem startsWith_append (p r : PyStr) : startsWith p (p ++ r) = true := by
  induction p with
  | nil => simp [startsWith]
  | cons c cs ih => simp [startsWith, ih]

theorem takeUntilQ_noQ {s : PyStr} (h : NoChar '?' s) : takeUntilQ s = s := by
  induction s with
  | nil => simp [takeUntilQ]
  | cons c cs ih =>
      have hc : c ≠ '?' := h c (by simp)
      simp [takeUntilQ, hc, ih (fun d hd => h d (by simp [hd]))]

theorem breakSlash_append {a : PyStr} (ha : NoChar '/' a) (b : PyStr) :
    breakSlash (a ++ '/' :: b) = (a, b) := by
  induction a with
  | nil => simp [breakSlash]
  | cons c cs ih =>
      have hc : c ≠ '/' := ha c (by simp)
      have ha' : breakSlash (cs ++ '/' :: b) = (cs, b) :=
        ih (fun d hd => ha d (by simp [hd]))
      simp [breakSlash, hc, ha']

theorem quote_plus_safe_id {s : PyStr} (h : ∀ c ∈ s, isSafeChar c = true) :
    quote_plus s = s := by
  induction s with
  | nil => rfl
  | cons c cs ih =>
      have hc : isSafeChar c = true := h c (by simp)
      simp [quote_plus, encodeChar, hc, ih (fun d hd => h d (by simp [hd]))]

theorem validLabelChar_safe {c : Char} (h : validLabelChar c = true) : isSafeChar c = true := by
  simp only [validLabelChar, Bool.or_eq_true] at h
  simp only [isSafeChar, Bool.or_eq_true]
  tauto

theorem validLabel_safe {s : PyStr} (h : validLabel s = true) :
    ∀ c ∈ s, isSafeChar c = true := by
  intro c hc
  simp only [validLabel, Bool.and_eq_true, List.all_eq_true] at h
  exact validLabelChar_safe (h.2 c hc)

theorem safe_noChar {x : Char} (hx : isSafeChar x = false) {s : PyStr}
    (h : ∀ c ∈ s, isSafeChar c = true) : NoChar x s := by
  intro c hc he
  subst he
  rw [h c hc] at hx
  cases hx

theorem exceptBind_ok {α β : Type} (a : α) (f : α → Except PyStr β) :
    (Except.ok a : Except PyStr α) >>= f = f a := rfl

theorem exceptBind_error {α β : Type} (e : PyStr) (f : α → Except PyStr β) :
    (Except.error e : Except PyStr α) >>= f = .error e := rfl

theorem exceptMap_ok {α β : Type} (a : α) (f : α → β) :
    f <$> (Except.ok a : Except PyStr α) = .ok (f a) := rfl

theorem exceptMap_error {α β : Type} (e : PyStr) (f : α → β) :
    f <$> (Except.error e : Except PyStr α) = .error e := rfl

theorem errorDetail_status (r : Response) :
    containsSub (natToChars r.status_code) (errorDetail r) :=
  ⟨S "Invalid http request for " ++ r.url ++ S " (Status ",
   S ")" ++ S "\n" ++ r.text, by simp [errorDetail, List.append_assoc]⟩

theorem errorDetail_text (r : Response) : containsSub r.text (errorDetail r) :=
  ⟨S "Invalid http request for " ++ r.url ++ S " (Status " ++ natToChars r.status_code
    ++ S ")" ++ S "\n", [], by simp [errorDetail, List.append_assoc]⟩

theorem parseStrBody_closed {v : PyStr} (hq : NoChar '"' v) (hb : NoChar '\\' v)
    (r : PyStr) : parseStrBody (v ++ '"' :: r) = .ok (v, r) := by
  induction v with
  | nil => rfl
  | cons c cs ih =>
      have h1 : c ≠ '"' := hq c (by simp)
      have h2 : c ≠ '\\' := hb c (by simp)
      have ih' := ih (fun d hd => hq d (by simp [hd])) (fun d hd => hb d (by simp [hd]))
      rw [List.cons_append, parseStrBody.eq_def]
      simp [h1, h2, ih', Except.map]

theorem parseVal_string (f : Nat) {v : PyStr} (hq : NoChar '"' v) (hb : NoChar '\\' v)
    (r : PyStr) : parseVal (f + 1) ('"' :: (v ++ '"' :: r)) = .ok (.str v, r) := by
  have h : parseVal (f + 1) ('"' :: (v ++ '"' :: r))
      = (parseStrBody (v ++ '"' :: r)).map (fun p => (.str p.1, p.2)) := rfl
  rw [h, parseStrBody_closed hq hb]
  rfl

theorem parseVal_obj_step (f : Nat) (T : PyStr) :
    parseVal (f + 1) ('\x7b' :: '"' :: T) =
      match parseStrBody T with
      | .error e => .error e
      | .ok (key, r₂) =>
          match r₂ with
          | ':' :: r₃ =>
              match parseVal f r₃ with
              | .error e => .error e
              | .ok (v, r₄) =>
                  match r₄ with
                  | ',' :: r₅ =>
                      match parseVal f ('\x7b' :: r₅) with
                      | .ok (.obj ms, r₆) => .ok (.obj ((key, v) :: ms), r₆)
                      | .ok _ => .error (S "bad object tail")
                      | .error e => .error e
                  | '\x7d' :: r₅ => .ok (.obj [(key, v)], r₅)
                  | _ => .error (S "expected comma or closing brace")
          | _ => .error (S "expected colon")
    := rfl

theorem parseVal_obj_step2 (f : Nat) {key : PyStr} (hq : NoChar '"' key)
    (hb : NoChar '\\' key) (T : PyStr) :
    parseVal (f + 1) ('\x7b' :: '"' :: (key ++ '"' :: ':' :: T)) =
      match parseVal f T with
      | .error e => .error e
      | .ok (v, r₄) =>
          match r₄ with
          | ',' :: r₅ =>
              match parseVal f ('\x7b' :: r₅) with
              | .ok (.obj ms, r₆) => .ok (.obj ((key, v) :: ms), r₆)
              | .ok _ => .error (S "bad object tail")
              | .error e => .error e
          | '\x7d' :: r₅ => .ok (.obj [(key, v)], r₅)
          | _ => .error (S "expected comma or closing brace")
    := by
  rw [parseVal_obj_step, parseStrBody_closed hq hb]
  rfl

theorem parseVal_obj_one (f : Nat) {k v : PyStr} (hkq : NoChar '"' k)
    (hkb : NoChar '\\' k) (hvq : NoChar '"' v) (hvb : NoChar '\\' v) (r : PyStr) :
    parseVal (f + 1 + 1)
        ('\x7b' :: '"' :: (k ++ '"' :: ':' :: ('"' :: (v ++ '"' :: '\x7d' :: r))))
      = .ok (.obj [(k, .str v)], r) := by
  rw [parseVal_obj_step2 (f + 1) hkq hkb, parseVal_string f hvq hvb]
  rfl

theorem parseVal_obj_two (f : Nat) {k₁ v₁ k₂ v₂ : PyStr}
    (hk₁q : NoChar '"' k₁) (hk₁b : NoChar '\\' k₁)
    (hv₁q : NoChar '"' v₁) (hv₁b : NoChar '\\' v₁)
    (hk₂q : NoChar '"' k₂) (hk₂b : NoChar '\\' k₂)
    (hv₂q : NoChar '"' v₂) (hv₂b : NoChar '\\' v₂) (r : PyStr) :
    parseVal (f + 1 + 1 + 1)
        ('\x7b' :: '"' :: (k₁ ++ '"' :: ':' :: ('"' :: (v₁ ++ '"' :: ',' ::
          ('"' :: (k₂ ++ '"' :: ':' :: ('"' :: (v₂ ++ '"' :: '\x7d' :: r))))))))
      = .ok (.obj [(k₁, .str v₁), (k₂, .str v₂)], r) := by
  rw [parseVal_obj_step2 (f + 1 + 1) hk₁q hk₁b, parseVal_string (f + 1) hv₁q hv₁b]
  show (match parseVal (f + 1 + 1)
      ('\x7b' :: '"' :: (k₂ ++ '"' :: ':' :: ('"' :: (v₂ ++ '"' :: '\x7d' :: r)))) with
    | .ok (.obj ms, r₆) => (.ok (.obj ((k₁, .str v₁) :: ms), r₆) : Except PyStr (Json × PyStr))
    | .ok _ => .error (S "bad object tail")
    | .error e => .error e) = .ok (.obj [(k₁, .str v₁), (k₂, .str v₂)], r)
  rw [parseVal_obj_one f hk₂q hk₂b hv₂q hv₂b]

theorem serializeFlat_two (k₁ v₁ k₂ v₂ : PyStr) :
    serializeFlat [(k₁, v₁), (k₂, v₂)] =
      '\x7b' :: '"' :: (k₁ ++ '"' :: ':' :: ('"' :: (v₁ ++ '"' :: ',' ::
        ('"' :: (k₂ ++ '"' :: ':' :: ('"' :: (v₂ ++ '"' :: '\x7d' :: []))))))) := by
  simp [serializeFlat, serializeFields, fieldChars, List.append_assoc]

theorem jsonParse_flat2 {k₁ v₁ k₂ v₂ : PyStr}
    (hk₁q : NoChar '"' k₁) (hk₁b : NoChar '\\' k₁)
    (hv₁q : NoChar '"' v₁) (hv₁b : NoChar '\\' v₁)
    (hk₂q : NoChar '"' k₂) (hk₂b : NoChar '\\' k₂)
    (hv₂q : NoChar '"' v₂) (hv₂b : NoChar '\\' v₂) :
    jsonParse (serializeFlat [(k₁, v₁), (k₂, v₂)])
      = .ok (.obj [(k₁, .str v₁), (k₂, .str v₂)]) := by
  rw [serializeFlat_two]
  simp only [jsonParse, List.length_cons]
  rw [parseVal_obj_two _ hk₁q hk₁b hv₁q hv₁b hk₂q hk₂b hv₂q hv₂b]

theorem assocFind_set_self (s : ServerState) (k : PyStr) (e : Entry) :
    assocFind (assocSet s k e) k = some e := by
  induction s with
  | nil => simp [assocSet, assocFind]
  | cons he rest ih =>
      obtain ⟨k', e'⟩ := he
      by_cases h : k' = k
      · subst h; simp [assocSet, assocFind]
      · simp [assocSet, assocFind, h, ih]

theorem assocFind_set_ne (s : ServerState) {k k' : PyStr} (e : Entry) (h : k ≠ k') :
    assocFind (assocSet s k e) k' = assocFind s k' := by
  induction s with
  | nil => simp [assocSet, assocFind, h]
  | cons he rest ih =>
      obtain ⟨k₀, e₀⟩ := he
      by_cases h0 : k₀ = k
      · subst h0; simp [assocSet, assocFind, h]
      · simp [assocSet, assocFind, h0, ih]

theorem deprecatedAt_set_self (s : ServerState) (k : PyStr) (e : Entry) :
    deprecatedAt (assocSet s k e) k = e.deprecated := by
  simp only [deprecatedAt, assocFind_set_self]

theorem deprecatedAt_set_ne (s : ServerState) {k key : PyStr} (e : Entry) (hk : k ≠ key) :
    deprecatedAt (assocSet s k e) key = deprecatedAt s key := by
  simp only [deprecatedAt, assocFind_set_ne _ _ hk]

theorem serverStep_mono (s : ServerState) (req : Request) (key : PyStr)
    (h : deprecatedAt s key = true) : deprecatedAt (serverStep s req).2 key = true := by
  obtain ⟨m, url, body⟩ := req
  have hset : ∀ (e' : Entry), (takeUntilQ url = key → e'.deprecated = true) →
      deprecatedAt (assocSet s (takeUntilQ url) e') key = true := by
    intro e' he
    by_cases hk : takeUntilQ url = key
    · subst hk; rw [deprecatedAt_set_self]; exact he rfl
    · rw [deprecatedAt_set_ne _ _ hk]; exact h
  have hdep : ∀ (e : Entry), assocFind s (takeUntilQ url) = some e →
      takeUntilQ url = key → e.deprecated = true := by
    intro e hf hk
    subst hk
    simp only [deprecatedAt, hf] at h
    exact h
  have hnone : assocFind s (takeUntilQ url) = none → takeUntilQ url ≠ key := by
    intro hf hk
    subst hk
    simp only [deprecatedAt, hf] at h
    cases h
  cases m <;> simp only [serverStep] <;>
    rcases hf : assocFind s (takeUntilQ url) with _ | e <;> simp only [hf]
  · exact h
  · exact h
  · exact hset _ (fun hk => by cases hnone hf hk)
  · have := hdep e hf
    by_cases hd : e.deprecated = true
    · simp [hd]; exact h
    · simp [Bool.not_eq_true] at hd
      simp [hd]
      refine hset _ (fun hk => ?_)
      rw [hd] at this
      exact (Bool.false_ne_true (this hk)).elim
  · exact hset _ (fun hk => by cases hnone hf hk)
  · exact h
  · exact h
  · have := hdep e hf
    by_cases hd : e.deprecated = true
    · simp [hd]; exact h
    · simp [Bool.not_eq_true] at hd
      simp [hd]
      refine hset _ (fun hk => ?_)
      rw [hd] at this
      exact (Bool.false_ne_true (this hk)).elim
  · exact h
  · exact hset _ (fun _ => rfl)

theorem applyRequests_mono (reqs : List Request) :
    ∀ (s : ServerState) (key : PyStr), deprecatedAt s key = true →
      deprecatedAt (applyRequests s reqs) key = true := by
  induction reqs with
  | nil => intro s key h; exact h
  | cons r rest ih =>
      intro s key h
      simp only [applyRequests, List.foldl_cons]
      exact ih _ _ (serverStep_mono s r key h)

theorem runCall_mono (s : ServerState) (c : LibCall) (key : PyStr)
    (h : deprecatedAt s key = true) : deprecatedAt (runCall s c) key = true :=
  applyRequests_mono _ s key h

theorem runCalls_mono (cs : List LibCall) :
    ∀ (s : ServerState) (key : PyStr), deprecatedAt s key = true →
      deprecatedAt (runCalls s cs) key = true := by
  induction cs with
  | nil => intro s key h; exact h
  | cons c rest ih =>
      intro s key h
      simp only [runCalls, List.foldl_cons]
      exact ih _ _ (runCall_mono s c key h)

theorem S_qfrom : S "?from=" = '?' :: S "from=" := rfl

theorem S_andsize : S "&size=" = '&' :: S "size=" := rfl

theorem S_anddep : S "&deprecated=" = '&' :: S "deprecated=" := rfl

theorem S_andq : S "&q=" = '&' :: S "q=" := rfl

theorem boolChars_noAmp (b : Bool) : NoChar '&' (boolChars b) := by
  cases b <;> decide

theorem splitAmp_chain {x y : PyStr} (hx : NoChar '&' x) (hy : NoChar '&' y)
    (rest : PyStr) : splitAmp (x ++ (y ++ '&' :: rest)) = (x ++ y) :: splitAmp rest := by
  rw [← List.append_assoc]
  exact splitAmp_append (noChar_append hx hy) rest

theorem splitAmp_last {x y : PyStr} (hx : NoChar '&' x) (hy : NoChar '&' y) :
    splitAmp (x ++ y) = [x ++ y] :=
  splitAmp_noAmp (noChar_append hx hy)

theorem queryParams_listShape (P A B : PyStr) (dep : Option Bool) (q : Option PyStr)
    (hP : NoChar '?' P) (hA : NoChar '&' A) (hB : NoChar '&' B)
    (hq : ∀ e, q = some e → NoChar '&' e) :
    queryParams (P ++ S "?from=" ++ A ++ S "&size=" ++ B ++ depPart dep ++ qPart q) =
      [S "from=" ++ A, S "size=" ++ B]
        ++ (match dep with | none => [] | some b => [S "deprecated=" ++ boolChars b])
        ++ (match q with | none => [] | some e => [S "q=" ++ e]) := by
  have hfrom : NoChar '&' (S "from=") := by decide
  have hsize : NoChar '&' (S "size=") := by decide
  have hdepl : NoChar '&' (S "deprecated=") := by decide
  have hql : NoChar '&' (S "q=") := by decide
  cases dep with
  | none =>
      rcases q with _ | e
      · simp only [depPart, qPart, queryParams, S_qfrom, S_andsize,
          List.append_assoc, List.cons_append, List.append_nil, List.nil_append]
        rw [afterQ_append hP, splitAmp_chain hfrom hA, splitAmp_last hsize hB]
      · have he : NoChar '&' e := hq e rfl
        simp only [depPart, qPart, queryParams, S_qfrom, S_andsize, S_andq,
          List.append_assoc, List.cons_append, List.append_nil, List.nil_append]
        rw [afterQ_append hP, splitAmp_chain hfrom hA, splitAmp_chain hsize hB,
          splitAmp_last hql he]
  | some b =>
      have hbv : NoChar '&' (if b = true then S "true" else S "false") := boolChars_noAmp b
      rcases q with _ | e
      · simp only [depPart, qPart, queryParams, S_qfrom, S_andsize, S_anddep,
          List.append_assoc, List.cons_append, List.append_nil, List.nil_append]
        rw [afterQ_append hP, splitAmp_chain hfrom hA, splitAmp_chain hsize hB,
          splitAmp_last hdepl hbv]
        rfl
      · have he : NoChar '&' e := hq e rfl
        simp only [depPart, qPart, queryParams, boolChars, S_qfrom, S_andsize, S_anddep, S_andq,
          List.append_assoc, List.cons_append, List.append_nil, List.nil_append]
        rw [afterQ_append hP, splitAmp_chain hfrom hA, splitAmp_chain hsize hB,
          splitAmp_chain hdepl hbv, splitAmp_last hql he]

theorem project_list_url_shape (org : Option PyStr) (pf ps : Nat) (dep : Option Bool)
    (q : Option PyStr) :
    project_list_url org pf ps dep q =
      (match org with
        | none => S "/projects"
        | some o => S "/projects" ++ S "/" ++ quote_plus o)
        ++ S "?from=" ++ natToChars pf ++ S "&size=" ++ natToChars ps
        ++ depPart dep ++ qPart (q.map quote_plus) := by
  cases org <;> cases dep <;> rcases q with _ | e <;>
    simp [project_list_url, depPart, qPart, List.append_assoc]

theorem schemas_list_url_shape (org proj : PyStr) (pf ps : Nat) (dep : Option Bool)
    (q : Option PyStr) :
    schemas_list_url org proj pf ps dep q =
      (S "/schemas/" ++ quote_plus org ++ S "/" ++ quote_plus proj)
        ++ S "?from=" ++ natToChars pf ++ S "&size=" ++ natToChars ps
        ++ depPart dep ++ qPart ((schemasQArg q).map quote_plus) := by
  cases dep <;> rcases q with _ | (_ | ⟨c, e⟩) <;>
    simp [schemas_list_url, schemasQArg, depPart, qPart, List.append_assoc]

theorem sw_dep_from (x : PyStr) :
    startsWith (S "deprecated" ++ ['=']) (S "from=" ++ x) = false := rfl

theorem sw_dep_size (x : PyStr) :
    startsWith (S "deprecated" ++ ['=']) (S "size=" ++ x) = false := rfl

theorem sw_dep_q (x : PyStr) :
    startsWith (S "deprecated" ++ ['=']) (S "q=" ++ x) = false := rfl

theorem sw_dep_dep (x : PyStr) :
    startsWith (S "deprecated" ++ ['=']) (S "deprecated=" ++ x) = true :=
  startsWith_append (S "deprecated" ++ ['=']) x

theorem sw_q_from (x : PyStr) : startsWith (S "q" ++ ['=']) (S "from=" ++ x) = false := rfl

theorem sw_q_size (x : PyStr) : startsWith (S "q" ++ ['=']) (S "size=" ++ x) = false := rfl

theorem sw_q_dep (x : PyStr) :
    startsWith (S "q" ++ ['=']) (S "deprecated=" ++ x) = false := rfl

theorem sw_q_q (x : PyStr) : startsWith (S "q" ++ ['=']) (S "q=" ++ x) = true :=
  startsWith_append (S "q" ++ ['=']) x

theorem projects_base_noQ (org : Option PyStr) :
    NoChar '?' (match org with
      | none => S "/projects"
      | some o => S "/projects" ++ S "/" ++ quote_plus o) := by
  cases org with
  | none => decide
  | some o =>
      exact noChar_append (noChar_append (by decide) (by decide))
        (quote_plus_noChar '?' (by decide) o)

theorem schemas_base_noQ (org proj : PyStr) :
    NoChar '?' (S "/schemas/" ++ quote_plus org ++ S "/" ++ quote_plus proj) :=
  noChar_append
    (noChar_append (noChar_append (by decide) (quote_plus_noChar '?' (by decide) org))
      (by decide))
    (quote_plus_noChar '?' (by decide) proj)

theorem natToChars_noAmp (n : Nat) : NoChar '&' (natToChars n) :=
  natToChars_noChar '&' (by decide) n

theorem mapped_q_noAmp (q : Option PyStr) :
    ∀ e, q.map quote_plus = some e → NoChar '&' e := by
  intro e he
  cases q with
  | none => cases he
  | some qs =>
      simp only [Option.map_some'] at he
      cases he
      exact quote_plus_noChar '&' (by decide) qs

theorem schemas_q_noAmp (q : Option PyStr) :
    ∀ e, (schemasQArg q).map quote_plus = some e → NoChar '&' e := by
  intro e he
  rcases hq : schemasQArg q with _ | qs
  · rw [hq] at he; cases he
  · rw [hq] at he
    simp only [Option.map_some'] at he
    cases he
    exact quote_plus_noChar '&' (by decide) qs

/-- C2 (counterexample): the claim that the `q` parameter appears in
every listing URL exactly when the caller supplied the full-text
search argument fails on the code: with the supplied empty query
string, `project.list` emits a `q` parameter but `schemas.list`
does not, because the latter tests Python truthiness. -/
theorem c2_optional_filters_counterexample :
    (some ([] : PyStr)).isSome = true
    ∧ hasParam (S "q") (schemas_list_url (S "org") (S "proj") 0 20 none (some [])) = false
    ∧ hasParam (S "q") (project_list_url none 0 20 none (some [])) = true := by
  refine ⟨rfl, ?_, ?_⟩ <;> decide

/-- C2 (amended): in both listing URLs the `deprecated` parameter
appears exactly when the argument is not `None`; the `q` parameter
appears in `project.list` exactly when the argument is not `None`,
and in `schemas.list` exactly when the argument is not `None` and
not the empty string. -/
theorem c2_optional_filters_amended (org : Option PyStr) (orgS projS : PyStr)
    (pf ps : Nat) (dep : Option Bool) (q : Option PyStr) :
    (hasParam (S "deprecated") (project_list_url org pf ps dep q) = dep.isSome)
    ∧ (hasParam (S "q") (project_list_url org pf ps dep q) = q.isSome)
    ∧ (hasParam (S "deprecated") (schemas_list_url orgS projS pf ps dep q) = dep.isSome)
    ∧ (hasParam (S "q") (schemas_list_url orgS projS pf ps dep q)
        = !(q.getD []).isEmpty) := by
  have hA := natToChars_noAmp pf
  have hB := natToChars_noAmp ps
  refine ⟨?_, ?_, ?_, ?_⟩
  · simp only [hasParam]
    rw [project_list_url_shape,
      queryParams_listShape _ _ _ dep (q.map quote_plus) (projects_base_noQ org) hA hB
        (mapped_q_noAmp q)]
    cases dep <;> rcases q with _ | qs <;>
      simp [List.any_cons, List.any_nil, sw_dep_from, sw_dep_size, sw_dep_dep, sw_dep_q]
  · simp only [hasParam]
    rw [project_list_url_shape,
      queryParams_listShape _ _ _ dep (q.map quote_plus) (projects_base_noQ org) hA hB
        (mapped_q_noAmp q)]
    cases dep <;> rcases q with _ | qs <;>
      simp [List.any_cons, List.any_nil, sw_q_from, sw_q_size, sw_q_dep, sw_q_q]
  · simp only [hasParam]
    rw [schemas_list_url_shape,
      queryParams_listShape _ _ _ dep ((schemasQArg q).map quote_plus)
        (schemas_base_noQ orgS projS) hA hB (schemas_q_noAmp q)]
    cases dep <;> rcases q with _ | (_ | ⟨c, cs⟩) <;>
      simp [schemasQArg, List.any_cons, List.any_nil, sw_dep_from, sw_dep_size,
        sw_dep_dep, sw_dep_q]
  · simp only [hasParam]
    rw [schemas_list_url_shape,
      queryParams_listShape _ _ _ dep ((schemasQArg q).map quote_plus)
        (schemas_base_noQ orgS projS) hA hB (schemas_q_noAmp q)]
    cases dep <;> rcases q with _ | (_ | ⟨c, cs⟩) <;>
      simp [schemasQArg, List.any_cons, List.any_nil, sw_q_from, sw_q_size,
        sw_q_dep, sw_q_q]

/-- C5: both listing URLs always carry `from` and `size` as the first
two query parameters, holding the caller's pagination values, and the
Python defaults produce `from=0&size=20`. -/
theorem c5_pagination_params (org : Option PyStr) (orgS projS : PyStr) (pf ps : Nat)
    (dep : Option Bool) (q : Option PyStr) :
    (∃ rest, queryParams (project_list_url org pf ps dep q)
        = (S "from=" ++ natToChars pf) :: (S "size=" ++ natToChars ps) :: rest)
    ∧ (∃ rest, queryParams (schemas_list_url orgS projS pf ps dep q)
        = (S "from=" ++ natToChars pf) :: (S "size=" ++ natToChars ps) :: rest)
    ∧ queryParams (project_list_url_defaults org) = [S "from=0", S "size=20"]
    ∧ queryParams (schemas_list_url_defaults orgS projS) = [S "from=0", S "size=20"] := by
  have hA := natToChars_noAmp pf
  have hB := natToChars_noAmp ps
  refine ⟨?_, ?_, ?_, ?_⟩
  · rw [project_list_url_shape,
      queryParams_listShape _ _ _ dep (q.map quote_plus) (projects_base_noQ org)
        hA hB (mapped_q_noAmp q)]
    cases dep <;> rcases q with _ | qs <;> exact ⟨_, rfl⟩
  · rw [schemas_list_url_shape,
      queryParams_listShape _ _ _ dep ((schemasQArg q).map quote_plus)
        (schemas_base_noQ orgS projS) hA hB (schemas_q_noAmp q)]
    cases dep <;> rcases q with _ | (_ | ⟨c, cs⟩) <;> exact ⟨_, rfl⟩
  · simp only [project_list_url_defaults]
    rw [project_list_url_shape,
      queryParams_listShape _ _ _ none (Option.map quote_plus none) (projects_base_noQ org)
        (natToChars_noAmp 0) (natToChars_noAmp 20) (mapped_q_noAmp none)]
    decide
  · simp only [schemas_list_url_defaults]
    rw [schemas_list_url_shape,
      queryParams_listShape _ _ _ none ((schemasQArg none).map quote_plus)
        (schemas_base_noQ orgS projS) (natToChars_noAmp 0) (natToChars_noAmp 20)
        (schemas_q_noAmp none)]
    decide

/-- C1: supplying both `rev` and `tag` to `schemas.fetch` raises the
mutual-exclusion error before anything else happens; the result does
not depend on the transport and no request is sent. -/
theorem c1_rev_tag_mutual_exclusion (org proj sid : PyStr) (r : Nat) (tg : PyStr)
    (t : Transport) :
    schemas_fetch_req org proj sid (some r) (some tg)
        = .error (S "The arguments rev and tag are mutually exclusive. One or the other must be chosen.")
    ∧ schemas_fetch t org proj sid (some r) (some tg)
        = .error (S "The arguments rev and tag are mutually exclusive. One or the other must be chosen.")
    ∧ requestsOf (.schemasFetch org proj sid (some r) (some tg)) = [] :=
  ⟨rfl, rfl, rfl⟩

/-- C3: caller-supplied path segments reach the URL only through
`quote_plus`: the fetch URLs of the three modules place every segment
in encoded form, and the encoder's output alphabet contains only
URL-code characters (safe characters, plus and percent). -/
theorem c3_url_encoding (org proj sid subpath s : PyStr) (self : Bool) :
    project_fetch_url org proj none
        = S "/projects/" ++ quote_plus org ++ S "/" ++ quote_plus proj
    ∧ schemas_fetch_req org proj sid none none
        = .ok ⟨.GET, S "/schemas/" ++ quote_plus org ++ S "/" ++ quote_plus proj
            ++ S "/" ++ quote_plus sid, .null⟩
    ∧ (acls_fetch_req subpath none self).url
        = S "/acls/" ++ quote_plus subpath ++ S "?self=" ++ boolChars self
    ∧ (quote_plus s).all urlCodeChar = true := by
  refine ⟨rfl, rfl, ?_, ?_⟩
  · simp only [acls_fetch_req, pathFromSegments, queryFromParams, List.filterMap,
      Option.map, List.foldl, List.append_nil, List.append_assoc]
    rfl
  · rw [List.all_eq_true]
    intro c hc
    exact quote_plus_code s c hc

/-- C4: the ACL payload helper sets `@type` to `Append` for append and
to `Subtract` for subtract, omits it for replace, and always wraps the
given permissions and identity in a one-element `acl` list. -/
theorem c4_acl_payload (perms : List PyStr) (ident : Json) (subpath : PyStr) (rev : Nat) :
    (acls_append_req subpath perms ident rev).body
        = acls_payload perms ident (some (S "Append"))
    ∧ (acls_subtract_req subpath perms ident rev).body
        = acls_payload perms ident (some (S "Subtract"))
    ∧ (acls_replace_req subpath perms ident rev).body = acls_payload perms ident none
    ∧ pyGet (acls_payload perms ident (some (S "Append"))) (S "@type")
        = .ok (.str (S "Append"))
    ∧ pyGet (acls_payload perms ident (some (S "Subtract"))) (S "@type")
        = .ok (.str (S "Subtract"))
    ∧ pyGet (acls_payload perms ident none) (S "@type")
        = .error (S "KeyError: " ++ S "@type")
    ∧ ∀ op, pyGet (acls_payload perms ident op) (S "acl")
        = .ok (.arr [.obj [(S "permissions", .arr (perms.map .str)),
            (S "identity", ident)]]) := by
  have hne : ¬ (S "acl" = S "@type") := by decide
  refine ⟨rfl, rfl, rfl, ?_, ?_, ?_, ?_⟩
  · simp [acls_payload, pyGet, objFind, hne]
  · simp [acls_payload, pyGet, objFind, hne]
  · simp [acls_payload, pyGet, objFind, hne]
  · intro op
    cases op <;> simp [acls_payload, pyGet, objFind]

/-- C6: whenever the transport's response lies outside the success
range, each project operation raises the error detail — which always
contains the status code and the body text — and never returns
normally. -/
theorem c6_project_errors (t : Transport) (org proj : PyStr) (rev : Option Nat)
    (config : Option Json) (p : Json) (prevU : Option Nat) (olist : Option PyStr)
    (pf ps : Nat) (dep : Option Bool) (q : Option PyStr) (prevD : Nat)
    (r : Response) (req : Request) :
    (containsSub (natToChars r.status_code) (errorDetail r)
      ∧ containsSub r.text (errorDetail r))
    ∧ (is_response_valid (t ⟨.GET, project_fetch_url org proj rev, .null⟩) = false →
        project_fetch t org proj rev
          = .error (errorDetail (t ⟨.GET, project_fetch_url org proj rev, .null⟩)))
    ∧ (is_response_valid (t (project_create_req org proj config)) = false →
        project_create t org proj config
          = .error (errorDetail (t (project_create_req org proj config))))
    ∧ (project_update_req p prevU = .ok req →
        is_response_valid (t req) = false →
        project_update t p prevU = .error (errorDetail (t req)))
    ∧ (is_response_valid (t ⟨.GET, project_list_url olist pf ps dep q, .null⟩) = false →
        project_list t olist pf ps dep q
          = .error (errorDetail (t ⟨.GET, project_list_url olist pf ps dep q, .null⟩)))
    ∧ (is_response_valid (t ⟨.DELETE, project_deprecate_url org proj prevD, .null⟩) = false →
        project_deprecate t org proj prevD
          = .error (errorDetail (t ⟨.DELETE, project_deprecate_url org proj prevD, .null⟩))) := by
  refine ⟨⟨errorDetail_status r, errorDetail_text r⟩, ?_, ?_, ?_, ?_, ?_⟩
  · intro h; simp [project_fetch, handleResponse, h]
  · intro h; simp [project_create, handleResponse, h]
  · intro hreq h
    simp [project_update, hreq, exceptBind_ok, handleResponse, h]
  · intro h; simp [project_list, handleResponse, h]
  · intro h; simp [project_deprecate, handleResponse, h]

/-- C6 witness: a conflict response on a stale-revision update
surfaces as the raised error detail. -/
theorem c6_project_errors_witness :
    project_update witnessTransport witnessPayload none
      = .error (errorDetail (witnessTransport
          ⟨.PUT, S "/projects/myorg/myproj?rev=3", witnessPayload⟩)) :=
  (c6_project_errors witnessTransport (S "o") (S "p") none none witnessPayload none
      none 0 20 none none 1 ⟨S "u", 200, S ""⟩
      ⟨.PUT, S "/projects/myorg/myproj?rev=3", witnessPayload⟩).2.2.2.1
    (by rfl) (by rfl)

/-- C9: with `previous_rev` omitted, the revision sent in the `rev`
query parameter is exactly the payload's `_rev` field, and a payload
without `_rev` fails before any request is built. -/
theorem c9_default_revision (p r : Json) (o l selfStr tv : PyStr) (rtt : Option Nat)
    (e : PyStr) :
    (pyGet p (S "_rev") = .ok r → pyGet p (S "_organizationLabel") = .ok (.str o) →
      pyGet p (S "_label") = .ok (.str l) →
      project_update_req p none = .ok ⟨.PUT, S "/projects/" ++ quote_plus o ++ S "/"
        ++ quote_plus l ++ S "?rev=" ++ pyStr r, p⟩)
    ∧ (pyGet p (S "_rev") = .ok r → pyGet p (S "_self") = .ok (.str selfStr) →
      schemas_update_req p none = .ok ⟨.PUT, selfStr ++ S "?rev=" ++ pyStr r, p⟩)
    ∧ (pyGet p (S "_rev") = .ok r → pyGet p (S "_self") = .ok (.str selfStr) →
      schemas_deprecate_req p none
        = .ok ⟨.DELETE, selfStr ++ S "?rev=" ++ pyStr r, .null⟩)
    ∧ (pyGet p (S "_rev") = .ok r → pyGet p (S "_self") = .ok (.str selfStr) →
      schemas_tag_req p tv rtt none = .ok ⟨.PUT, selfStr ++ S "/tags?rev=" ++ pyStr r,
        .obj [(S "tag", .str tv), (S "rev", rtt.elim r (fun n => Json.num n))]⟩)
    ∧ (pyGet p (S "_rev") = .error e →
      project_update_req p none = .error e
      ∧ schemas_update_req p none = .error e
      ∧ schemas_deprecate_req p none = .error e
      ∧ schemas_tag_req p tv rtt none = .error e) := by
  refine ⟨?_, ?_, ?_, ?_, ?_⟩
  · intro h1 h2 h3
    simp [project_update_req, h1, h2, h3, asPyStr, exceptBind_ok, exceptMap_ok]
  · intro h1 h2
    simp [schemas_update_req, h1, h2, asPyStr, exceptBind_ok, exceptMap_ok]
  · intro h1 h2
    simp [schemas_deprecate_req, h1, h2, asPyStr, exceptBind_ok, exceptMap_ok]
  · intro h1 h2
    cases rtt <;>
      simp [schemas_tag_req, h1, h2, asPyStr, Option.elim, exceptBind_ok, exceptMap_ok]
  · intro h
    refine ⟨?_, ?_, ?_, ?_⟩ <;>
      [skip; skip; skip; cases rtt] <;>
      simp [project_update_req, schemas_update_req, schemas_deprecate_req,
        schemas_tag_req, h, exceptBind_ok, exceptBind_error, exceptMap_error]

/-- C9 witness: on a concrete payload carrying `_rev` 3, the built
requests carry `rev=3` in their query strings. -/
theorem c9_default_revision_witness :
    project_update_req witnessPayload none
      = .ok ⟨.PUT, S "/projects/myorg/myproj?rev=3", witnessPayload⟩
    ∧ schemas_deprecate_req witnessPayload none
      = .ok ⟨.DELETE, S "https://nexus.example/v1/schemas/myorg/myproj/sch1?rev=3",
          .null⟩ :=
  ⟨(c9_default_revision witnessPayload (.num 3) (S "myorg") (S "myproj")
      (S "https://nexus.example/v1/schemas/myorg/myproj/sch1") (S "v1.0.0") none
      (S "")).1 rfl rfl rfl,
   (c9_default_revision witnessPayload (.num 3) (S "myorg") (S "myproj")
      (S "https://nexus.example/v1/schemas/myorg/myproj/sch1") (S "v1.0.0") none
      (S "")).2.2.1 rfl rfl⟩

/-- C10: a JSON string passed to `schemas.create` is parsed before the
request is built, so the request equals the one built from the parsed
dictionary. -/
theorem c10_schema_string_parsed (org proj s : PyStr) (fields : List (PyStr × Json))
    (id : Option PyStr) (h : jsonParse s = .ok (.obj fields)) :
    schemas_create_req org proj (.str s) id
      = schemas_create_req org proj (.obj fields) id := by
  cases id <;> simp [schemas_create_req, h, exceptBind_ok] <;> rfl

/-- C10 witness: a concrete JSON string and its parsed dictionary
produce the same request. -/
theorem c10_schema_string_parsed_witness :
    jsonParse (S "\x7b\"shacl\":true\x7d") = .ok (.obj [(S "shacl", .bool true)])
    ∧ schemas_create_req (S "o1") (S "p1") (.str (S "\x7b\"shacl\":true\x7d")) none
      = schemas_create_req (S "o1") (S "p1") (.obj [(S "shacl", .bool true)]) none :=
  ⟨rfl, c10_schema_string_parsed (S "o1") (S "p1") _ _ none rfl⟩

/-- C7: deprecation is terminal: across every sequence of library
calls run against the modelled service, a deprecated resource remains
deprecated. -/
theorem c7_deprecation_terminal (cs : List LibCall) (s : ServerState) (key : PyStr)
    (h : deprecatedAt s key = true) : deprecatedAt (runCalls s cs) key = true :=
  runCalls_mono cs s key h

/-- C7 witness: a concrete call sequence over a deprecated project
leaves it deprecated. -/
theorem c7_deprecation_terminal_witness :
    deprecatedAt witnessServer (S "/projects/o1/p1") = true
    ∧ deprecatedAt (runCalls witnessServer witnessCalls) (S "/projects/o1/p1") = true :=
  ⟨rfl, c7_deprecation_terminal witnessCalls witnessServer _ rfl⟩

theorem drop_projects (X : PyStr) : (S "/projects/" ++ X).drop 10 = X := rfl

theorem noChar_cons {x c : Char} {s : PyStr} (hc : c ≠ x) (hs : NoChar x s) :
    NoChar x (c :: s) := by
  intro d hd
  rcases List.mem_cons.mp hd with h | h
  · subst h; exact hc
  · exact hs d h

/-- C8: for valid labels, `project.create` followed by `project.fetch`
with the same labels returns, from the modelled service, a payload
whose identifying organization and project labels equal the inputs. -/
theorem c8_create_then_fetch (org proj : PyStr) (ho : validLabel org = true)
    (hp : validLabel proj = true) :
    ∃ res, createThenFetch [] org proj = .ok res
      ∧ pyGet res (S "_organizationLabel") = .ok (.str org)
      ∧ pyGet res (S "_label") = .ok (.str proj) := by
  have hso := validLabel_safe ho
  have hsp := validLabel_safe hp
  have hqpo : quote_plus org = org := quote_plus_safe_id hso
  have hqpp : quote_plus proj = proj := quote_plus_safe_id hsp
  have hQo : NoChar '?' org := safe_noChar (by decide) hso
  have hQp : NoChar '?' proj := safe_noChar (by decide) hsp
  have hSo : NoChar '/' org := safe_noChar (by decide) hso
  have hGo : NoChar '"' org := safe_noChar (by decide) hso
  have hBo : NoChar '\\' org := safe_noChar (by decide) hso
  have hGp : NoChar '"' proj := safe_noChar (by decide) hsp
  have hBp : NoChar '\\' proj := safe_noChar (by decide) hsp
  have hurl : S "/projects/" ++ quote_plus org ++ S "/" ++ quote_plus proj
      = S "/projects/" ++ (org ++ '/' :: proj) := by
    rw [hqpo, hqpp]
    simp only [List.append_assoc]
    rfl
  have hnoQ : NoChar '?' (S "/projects/" ++ (org ++ '/' :: proj)) :=
    noChar_append (by decide) (noChar_append hQo (noChar_cons (by decide) hQp))
  have hkey : takeUntilQ (S "/projects/" ++ (org ++ '/' :: proj))
      = S "/projects/" ++ (org ++ '/' :: proj) := takeUntilQ_noQ hnoQ
  have hnf : newFields (S "/projects/" ++ (org ++ '/' :: proj))
      = [(S "_organizationLabel", org), (S "_label", proj)] := by
    simp only [newFields, startsWith_append, if_true]
    rw [drop_projects, breakSlash_append hSo]
  have hparse : jsonParse (serializeFlat [(S "_organizationLabel", org), (S "_label", proj)])
      = .ok (.obj [(S "_organizationLabel", .str org), (S "_label", .str proj)]) :=
    jsonParse_flat2 (by decide) (by decide) hGo hBo (by decide) (by decide) hGp hBp
  have hne : ¬ (S "_organizationLabel" = S "_label") := by decide
  refine ⟨.obj [(S "_organizationLabel", .str org), (S "_label", .str proj)], ?_, ?_, ?_⟩
  · simp only [createThenFetch, project_create_req, project_fetch_url, hurl]
    simp only [serverStep, hkey, assocFind, hnf, assocSet]
    simp only [handleResponse, is_response_valid]
    norm_num
    rw [hparse]
  · simp [pyGet, objFind]
  · simp [pyGet, objFind, hne]

/-- C8 witness: the round trip on concrete valid labels. -/
theorem c8_create_then_fetch_witness :
    validLabel (S "bbp") = true ∧ validLabel (S "proj1") = true
    ∧ ∃ res, createThenFetch [] (S "bbp") (S "proj1") = .ok res
      ∧ pyGet res (S "_organizationLabel") = .ok (.str (S "bbp"))
      ∧ pyGet res (S "_label") = .ok (.str (S "proj1")) :=
  ⟨by decide, by decide, c8_create_then_fetch (S "bbp") (S "proj1") (by decide) (by decide)⟩
